import Mathlib

/-!
# go-bootstrap: the scaffolding pipeline of `main.go`

A shallow embedding of `src/main.go` (functions `setupDatabase` and `main`).

* Go strings are Lean strings; `strings.Trim`, `strings.Split` and
  `strings.HasPrefix` are defined on the character lists. The separator `/` is an
  ASCII character, so splitting by character and splitting by byte agree.
* The process is a state machine over `Run` (current working directory, log
  lines, trace of attempted effects). A computation either continues with a
  value or halts the process (`log.Fatalln`, `helpers.ExitOnError`).
* Everything the program obtains from its surroundings (environment variables,
  the filesystem, the outcome of external commands, the helpers of package
  `helpers` that read them) is a field of `World`. Operating-system calls are
  keyed by the trace of the effects attempted so far, so the outcome of a call
  may depend on everything that happened before it.
* `main` is one Go function; its consecutive line ranges are the definitions
  `resolveGopath` (39-56), `extractNames` (58-71), `copyTemplate` (75-92),
  `interpolate` (94-109) and `setupSteps` (111-169), which `main` runs in this
  order.
-/

namespace GoBootstrap

/-! ## Strings -/

/-- Drop the leading characters that belong to `cutset`. -/
def trimLeft (cutset : List Char) : List Char → List Char
  | [] => []
  | c :: cs => if c ∈ cutset then trimLeft cutset cs else c :: cs

/-- Go `strings.Trim(s, cutset)`: all leading and trailing characters contained in
`cutset` removed. -/
def Trim (s cutset : String) : String :=
  ⟨(trimLeft cutset.data (trimLeft cutset.data s.data).reverse).reverse⟩

/-- Split a character list at every occurrence of `sep`; the pieces between two
adjacent separators are empty lists, and the empty input gives one empty piece. -/
def splitChars (sep : Char) : List Char → List (List Char)
  | [] => [[]]
  | c :: cs =>
    if c = sep then [] :: splitChars sep cs
    else
      match splitChars sep cs with
      | [] => [[c]]
      | piece :: rest => (c :: piece) :: rest

/-- Go `strings.Split(s, sep)` for a one-character separator (`main` calls it with
`"/"` only). -/
def Split (s : String) (sep : Char) : List String :=
  (splitChars sep s.data).map String.mk

/-- Go `strings.HasPrefix(s, p)`. -/
def HasPrefix (s p : String) : Bool :=
  p.data.isPrefixOf s.data

/-- Go `filepath.Clean` for slash-separated paths: empty and `.` segments are
dropped, a `..` segment removes the segment before it (at the root it is
dropped); the empty relative path is `.`. -/
def pathClean (p : String) : String :=
  let rooted := HasPrefix p "/"
  let kept := (Split p '/').foldl (fun acc seg =>
    if seg = "" ∨ seg = "." then acc
    else if seg = ".." then
      match acc with
      | [] => if rooted then [] else [".."]
      | top :: rest => if top = ".." then ".." :: acc else rest
    else seg :: acc) []
  let body := "/".intercalate kept.reverse
  if rooted then "/" ++ body else if body = "" then "." else body

/-- Go `filepath.Join`: the non-empty elements joined with `/`, then cleaned. -/
def pathJoin (elems : List String) : String :=
  if elems.filter (fun e => e ≠ "") = [] then ""
  else pathClean ("/".intercalate (elems.filter (fun e => e ≠ "")))

/-! ## Process state -/

/-- How a call site treats the error of an external command: `failFast` when the
error is handed to `helpers.ExitOnError`, `bestEffort` when it is discarded
(`output, _ = cmd.CombinedOutput()`) and only the output is logged. -/
inductive Policy
  | failFast
  | bestEffort
  deriving DecidableEq

/-- An attempted filesystem mutation or external command. For `exec`, `dir` is
`cmd.Dir` (the empty string stands for the working directory of the process). -/
inductive Effect
  | mkdirAll (path : String)
  | chdir (dir : String)
  | exec (dir : String) (argv : List String) (policy : Policy)
  | searchReplace (root : String) (replacers : List (String × String))
  deriving DecidableEq

/-- The way the process stops early. -/
inductive Fatal
  | fatalln (msg : String)
  | exitOnError (err : String) (msg : String)
  deriving DecidableEq

/-- The state of the running process. -/
structure Run where
  cwd : String
  logs : List String
  trace : List Effect
  deriving DecidableEq

/-- Result of a step: continue with a value, or the process has terminated. -/
inductive Res (α : Type)
  | ok (a : α) (s : Run)
  | halt (e : Fatal) (s : Run)
  deriving DecidableEq

/-- The state in which the step ended. -/
def Res.run {α : Type} : Res α → Run
  | .ok _ s => s
  | .halt _ s => s

/-- The exit status: `none` for normal termination, `some e` for a fatal exit. -/
def Res.status {α : Type} : Res α → Option Fatal
  | .ok _ _ => none
  | .halt e _ => some e

/-- Computations of the process. -/
def M (α : Type) : Type := Run → Res α

instance : Monad M where
  pure a := fun s => Res.ok a s
  bind m f := fun s =>
    match m s with
    | Res.ok a s1 => f a s1
    | Res.halt e s1 => Res.halt e s1

/-! ## The surroundings -/

/-- Output and error of `cmd.CombinedOutput()`. -/
structure CmdResult where
  output : String
  err : Option String
  deriving DecidableEq

/-- Everything `main` obtains from outside. The helpers of package `helpers` that
read the environment are fields here; operating-system calls take the trace of
the effects attempted before them. -/
structure World where
  /-- Result of `helpers.GoPaths()`. -/
  GoPaths : List String
  /-- Result and error of `filepath.Abs`. -/
  Abs : String → String × Option String
  /-- Result of `filepath.Join`. -/
  Join : List String → String
  /-- Result and error of `helpers.GetProjectTemplateDir`. -/
  GetProjectTemplateDir : String → String × Option String
  /-- Result of `helpers.RandString`. -/
  RandString : Nat → String
  /-- Result of `helpers.GetCurrentUser`. -/
  GetCurrentUser : String
  /-- Result of `helpers.DefaultPGDSN`. -/
  DefaultPGDSN : String → String
  /-- Result of `helpers.BashEscape`. -/
  BashEscape : String → String
  /-- Error of `os.MkdirAll(path, 0755)`. -/
  MkdirAll : List Effect → String → Option String
  /-- Error of `os.Getwd()`. -/
  Getwd : List Effect → Option String
  /-- Error of `os.Chdir(dir)`. -/
  Chdir : List Effect → String → Option String
  /-- Outcome of `exec.Command(argv...)` with `cmd.Dir = dir`, then `CombinedOutput()`. -/
  Exec : List Effect → String → List String → CmdResult
  /-- Error of `helpers.RecursiveSearchReplaceFiles(root, replacers)`. -/
  RecursiveSearchReplaceFiles : List Effect → String → List (String × String) → Option String

/-! ## Primitive steps -/

/-- Go `log.Print`. -/
def logPrint (msg : String) : M Unit :=
  fun s => Res.ok () { s with logs := s.logs ++ [msg] }

/-- Go `log.Fatalln`: print the message, then exit with status 1. -/
def Fatalln {α : Type} (msg : String) : M α :=
  fun s => Res.halt (Fatal.fatalln msg) { s with logs := s.logs ++ [msg] }

/-- Modelled from the spec: `helpers.ExitOnError(err, msg)`, of package `helpers`,
whose source is not part of `src/`. A failure handed to it "aborts the entire
orchestration immediately, surfacing the error and the command's combined
output, and the process terminates with failure"; with no error the run goes
on. -/
def ExitOnError (err : Option String) (msg : String) : M Unit :=
  fun s =>
    match err with
    | none => Res.ok () s
    | some e => Res.halt (Fatal.exitOnError e msg) s

/-- Modelled from the spec: `helpers.IsValidGoPath(gopath)`, of package `helpers`,
whose source is not part of `src/`. An override is valid when "its absolute form
is a member of the candidate set". -/
def IsValidGoPath (w : World) (gopath : String) : Bool :=
  w.GoPaths.contains gopath

/-- Go `os.MkdirAll(path, 0755)`. -/
def MkdirAll (w : World) (path : String) : M (Option String) :=
  fun s => Res.ok (w.MkdirAll s.trace path) { s with trace := s.trace ++ [Effect.mkdirAll path] }

/-- Go `os.Getwd()`: the working directory, or an error. -/
def Getwd (w : World) : M (String × Option String) :=
  fun s =>
    match w.Getwd s.trace with
    | none => Res.ok (s.cwd, none) s
    | some e => Res.ok ("", some e) s

/-- The working directory after a successful `os.Chdir(dir)` from `cwd`, as the
process then reports it: the resolved absolute path, that is the cleaned `dir`
when `dir` is absolute and the cleaned join of `cwd` and `dir` when it is
relative (symbolic links are not modelled). -/
def chdirTarget (cwd dir : String) : String :=
  if HasPrefix dir "/" then pathClean dir else pathJoin [cwd, dir]

/-- Go `os.Chdir(dir)`: on success the working directory of the process changes. -/
def Chdir (w : World) (dir : String) : M (Option String) :=
  fun s =>
    match w.Chdir s.trace dir with
    | none =>
      Res.ok none { s with cwd := chdirTarget s.cwd dir, trace := s.trace ++ [Effect.chdir dir] }
    | some e => Res.ok (some e) { s with trace := s.trace ++ [Effect.chdir dir] }

/-- Go `cmd.CombinedOutput()` for `exec.Command(argv...)` with `cmd.Dir = dir`. The
policy records what the call site does with the error. -/
def CombinedOutput (w : World) (dir : String) (argv : List String) (policy : Policy) :
    M CmdResult :=
  fun s =>
    Res.ok (w.Exec s.trace dir argv)
      { s with trace := s.trace ++ [Effect.exec dir argv policy] }

/-- Go `helpers.RecursiveSearchReplaceFiles(root, replacers)`. -/
def RecursiveSearchReplaceFiles (w : World) (root : String)
    (replacers : List (String × String)) : M (Option String) :=
  fun s =>
    Res.ok (w.RecursiveSearchReplaceFiles s.trace root replacers)
      { s with trace := s.trace ++ [Effect.searchReplace root replacers] }

/-! ## `main.go` -/

/-- The parsed command line: `-dir` (default empty), `-gopath` (default empty),
`-template` (default `postgresql`). -/
structure Flags where
  dirInput : String
  gopathInput : String
  templateInput : String
  deriving DecidableEq

/-- The function `setupDatabase` (main.go, lines 15-26). -/
def setupDatabase (w : World) (fullpath : String) : M Unit := do
  logPrint "Running go get github.com/rnubel/pgmgr..."
  let r ← CombinedOutput w "" ["go", "get", "github.com/rnubel/pgmgr"] Policy.failFast
  ExitOnError r.err r.output
  let r ← CombinedOutput w fullpath ["bash", "scripts/db-bootstrap"] Policy.bestEffort
  logPrint r.output

/-- Lines 39-56 of `main`: the choice of the `gopath`. -/
def resolveGopath (w : World) (gopathInput : String) : M String := do
  let gopaths := w.GoPaths
  if gopaths.length = 0 then
    Fatalln "GOPATH is not set."
  else
    let gopath := gopaths.getD (gopaths.length - 1) ""
    if gopathInput ≠ "" then
      let (abs, err) := w.Abs gopathInput
      if err = none && IsValidGoPath w abs then
        pure abs
      else
        Fatalln ("Cannot find " ++ gopathInput ++ " in $GOPATH")
    else
      pure gopath

/-- The local variables `main` derives from `-dir` (lines 58-71). -/
structure Names where
  trimmedPath : String
  fullpath : String
  repoName : String
  repoUser : String
  projectName : String
  dbName : String
  testDbName : String
  deriving DecidableEq

/-- Lines 58-71 of `main`: the identifiers extracted from `-dir`. -/
def extractNames (w : World) (gopath dirInput : String) : M Names := do
  let trimmedPath := Trim dirInput "/"
  let fullpath := w.Join [gopath, "src", trimmedPath]
  let dirChunks := Split trimmedPath '/'
  if dirChunks.length < 3 then
    Fatalln ("Cannot extract repo name, repo user and project name, " ++
      "-dir should have three parts, seperated by '/'.")
  else
    let repoName := dirChunks.getD (dirChunks.length - 3) ""
    let repoUser := dirChunks.getD (dirChunks.length - 2) ""
    let projectName := dirChunks.getD (dirChunks.length - 1) ""
    let dbName := projectName
    let testDbName := projectName ++ "-test"
    pure { trimmedPath := trimmedPath, fullpath := fullpath, repoName := repoName,
           repoUser := repoUser, projectName := projectName, dbName := dbName,
           testDbName := testDbName }

/-- Lines 75-92 of `main`: create the target directory and copy the project
template into it. -/
def copyTemplate (w : World) (projectTemplateDir fullpath : String) : M Unit := do
  logPrint ("Creating " ++ fullpath ++ "...")
  let err ← MkdirAll w fullpath
  ExitOnError err ""
  logPrint ("Copying project template directory to " ++ fullpath ++ "...")
  let (currDir, err) ← Getwd w
  ExitOnError err "Can't get current path!"
  let err ← Chdir w projectTemplateDir
  ExitOnError err ""
  let r ← CombinedOutput w "" ["cp", "-rf", ".", fullpath] Policy.failFast
  ExitOnError r.err r.output
  let err ← Chdir w currDir
  ExitOnError err ""

/-- The `replacers` map of `main` (lines 97-106), in the order of the assignments. -/
def replacers (w : World) (n : Names) : List (String × String) :=
  [ ("$GO_BOOTSTRAP_REPO_NAME", n.repoName),
    ("$GO_BOOTSTRAP_REPO_USER", n.repoUser),
    ("$GO_BOOTSTRAP_PROJECT_NAME", n.projectName),
    ("$GO_BOOTSTRAP_COOKIE_SECRET", w.RandString 16),
    ("$GO_BOOTSTRAP_CURRENT_USER", w.GetCurrentUser),
    ("$GO_BOOTSTRAP_PG_DSN", w.DefaultPGDSN n.dbName),
    ("$GO_BOOTSTRAP_ESCAPED_PG_DSN", w.BashEscape (w.DefaultPGDSN n.dbName)),
    ("$GO_BOOTSTRAP_PG_TEST_DSN", w.DefaultPGDSN n.testDbName),
    ("$GO_BOOTSTRAP_ESCAPED_PG_TEST_DSN", w.BashEscape (w.DefaultPGDSN n.testDbName)) ]

/-- Lines 94-109 of `main`: interpolate the placeholder variables. -/
def interpolate (w : World) (n : Names) : M Unit := do
  logPrint ("Replacing placeholder variables on " ++ n.repoUser ++ "/" ++ n.projectName ++ "...")
  let err ← RecursiveSearchReplaceFiles w n.fullpath (replacers w n)
  ExitOnError err ""

/-- Lines 111-169 of `main`: database setup, dependencies, version control, tests. -/
def setupSteps (w : World) (templateInput : String) (n : Names) : M Unit := do
  let fullpath := n.fullpath
  if templateInput ≠ "core" then
    setupDatabase w fullpath
  logPrint "Running go get ./..."
  let r ← CombinedOutput w fullpath ["go", "get", "./..."] Policy.failFast
  ExitOnError r.err r.output
  let repoIsGit := HasPrefix n.repoName "git"
  let repoIsHg := HasPrefix n.repoName "bitbucket"
  if repoIsGit || repoIsHg then
    logPrint "Installing github.com/tools/godep..."
    let r ← CombinedOutput w "" ["go", "get", "github.com/tools/godep"] Policy.failFast
    ExitOnError r.err r.output
    if repoIsGit then
      logPrint "Running git init..."
      let r ← CombinedOutput w fullpath ["git", "init"] Policy.failFast
      ExitOnError r.err r.output
    if repoIsHg then
      logPrint "Running hg init..."
      let r ← CombinedOutput w fullpath ["hg", "init"] Policy.bestEffort
      logPrint r.output
    logPrint "Running godep save ./..."
    let r ← CombinedOutput w fullpath ["godep", "save", "./..."] Policy.failFast
    ExitOnError r.err r.output
    logPrint "Running godep go test ./..."
    let r ← CombinedOutput w fullpath ["godep", "go", "test", "./..."] Policy.bestEffort
    logPrint r.output
  else
    logPrint "Running go test ./..."
    let r ← CombinedOutput w fullpath ["go", "test", "./..."] Policy.bestEffort
    logPrint r.output

/-- The function `main` (main.go, lines 28-170). -/
def main (w : World) (f : Flags) : M Unit := do
  if f.dirInput = "" then
    Fatalln "dir option is missing."
  let gopath ← resolveGopath w f.gopathInput
  let n ← extractNames w gopath f.dirInput
  let (projectTemplateDir, err) := w.GetProjectTemplateDir f.templateInput
  ExitOnError err ""
  copyTemplate w projectTemplateDir n.fullpath
  interpolate w n
  setupSteps w f.templateInput n

/-- A process started in working directory `cwd`. -/
def start (cwd : String) : Run :=
  { cwd := cwd, logs := [], trace := [] }

/-! ## Vocabulary of the specification -/

/-- The setup steps whose error is handed to `helpers.ExitOnError`. -/
def failFastSteps : List (List String) :=
  [ ["go", "get", "github.com/rnubel/pgmgr"],
    ["go", "get", "./..."],
    ["go", "get", "github.com/tools/godep"],
    ["git", "init"],
    ["godep", "save", "./..."] ]

/-- The setup steps whose error is discarded. -/
def bestEffortSteps : List (List String) :=
  [ ["bash", "scripts/db-bootstrap"],
    ["hg", "init"],
    ["godep", "go", "test", "./..."],
    ["go", "test", "./..."] ]

/-- The number of non-empty segments of `-dir` after trimming the slashes at both
ends and splitting on `/`, as the specification counts them. -/
def nonEmptySegments (dirInput : String) : Nat :=
  ((Split (Trim dirInput "/") '/').filter (fun seg => seg ≠ "")).length

/-- The message of the fatal exit at lines 63-64 of `main`. -/
def threePartsMessage : String :=
  "Cannot extract repo name, repo user and project name, " ++
    "-dir should have three parts, seperated by '/'."

/-- No setup step of `failFastSteps` in the trace `t` returned an error. -/
structure NoFailure (w : World) (t : List Effect) : Prop where
  ok : ∀ (p : List Effect) (dir : String) (argv : List String) (pol : Policy) (post : List Effect)
    (e : String),
    t = p ++ Effect.exec dir argv pol :: post → argv ∈ failFastSteps →
    (w.Exec p dir argv).err ≠ some e

/-- A setup step of `failFastSteps` in the trace `t` that returned an error is the
last element of `t`, and the exit status `st` reports that error together with
the output of the command. -/
structure HaltsAtFailure (w : World) (st : Option Fatal) (t : List Effect) : Prop where
  last : ∀ (p : List Effect) (dir : String) (argv : List String) (pol : Policy) (post : List Effect)
    (e : String),
    t = p ++ Effect.exec dir argv pol :: post → argv ∈ failFastSteps →
    (w.Exec p dir argv).err = some e →
    post = [] ∧ st = some (Fatal.exitOnError e (w.Exec p dir argv).output)

/-- The ordered list of setup steps of the specification ("steps are evaluated in
a fixed total order; inclusion predicates filter the list but never reorder
it"), for a template name and the names extracted from `-dir`. -/
def plannedSteps (templateInput : String) (n : Names) : List Effect :=
  (if templateInput ≠ "core" then
      [ Effect.exec "" ["go", "get", "github.com/rnubel/pgmgr"] Policy.failFast,
        Effect.exec n.fullpath ["bash", "scripts/db-bootstrap"] Policy.bestEffort ]
    else []) ++
  [ Effect.exec n.fullpath ["go", "get", "./..."] Policy.failFast ] ++
  (if HasPrefix n.repoName "git" || HasPrefix n.repoName "bitbucket" then
      [ Effect.exec "" ["go", "get", "github.com/tools/godep"] Policy.failFast ] ++
      (if HasPrefix n.repoName "git" then
          [ Effect.exec n.fullpath ["git", "init"] Policy.failFast ]
        else []) ++
      (if HasPrefix n.repoName "bitbucket" then
          [ Effect.exec n.fullpath ["hg", "init"] Policy.bestEffort ]
        else []) ++
      [ Effect.exec n.fullpath ["godep", "save", "./..."] Policy.failFast,
        Effect.exec n.fullpath ["godep", "go", "test", "./..."] Policy.bestEffort ]
    else
      [ Effect.exec n.fullpath ["go", "test", "./..."] Policy.bestEffort ])

/-- A result satisfies `Q` when the run continues and `H` when the process halted. -/
def Res.Sat {α : Type} (r : Res α) (Q : α → Run → Prop) (H : Fatal → Run → Prop) : Prop :=
  match r with
  | Res.ok a s => Q a s
  | Res.halt e s => H e s

/-- Two results agree: both continue or both halt with the same status, with the
same trace and the same working directory; the values are related by `R`. The
log lines may differ. -/
def Agree {α β : Type} (R : α → β → Prop) (r1 : Res α) (r2 : Res β) : Prop :=
  match r1, r2 with
  | Res.ok a s1, Res.ok b s2 => R a b ∧ s1.trace = s2.trace ∧ s1.cwd = s2.cwd
  | Res.halt e1 s1, Res.halt e2 s2 => e1 = e2 ∧ s1.trace = s2.trace ∧ s1.cwd = s2.cwd
  | _, _ => False

/-- Two computations agree from any two states with the same trace and the same
working directory. -/
structure Sim {α β : Type} (R : α → β → Prop) (m1 : M α) (m2 : M β) : Prop where
  agree : ∀ s1 s2 : Run, s1.trace = s2.trace → s1.cwd = s2.cwd → Agree R (m1 s1) (m2 s2)

/-! ## Sample surroundings -/

/-- Surroundings in which every call succeeds: `GOPATH=/go1:/go2`, a process
started in `/home`, a template directory for the templates `postgresql` and
`core`. -/
def okWorld : World where
  GoPaths := ["/go1", "/go2"]
  Abs := fun p => if HasPrefix p "/" then (pathClean p, none) else (pathJoin ["/home", p], none)
  Join := pathJoin
  GetProjectTemplateDir := fun t =>
    if t = "postgresql" ∨ t = "core" then ("/tpl/" ++ t, none)
    else ("", some "unknown project template")
  RandString := fun _ => "0123456789abcdef"
  GetCurrentUser := "gopher"
  DefaultPGDSN := fun db => "postgres://gopher@localhost:5432/" ++ db
  BashEscape := fun x => x
  MkdirAll := fun _ _ => none
  Getwd := fun _ => none
  Chdir := fun _ _ => none
  Exec := fun _ _ _ => { output := "", err := none }
  RecursiveSearchReplaceFiles := fun _ _ _ => none

/-- The outcome of commands when `argv` fails with exit status 1 and everything
else succeeds. -/
def failing (argv : List String) : List Effect → String → List String → CmdResult :=
  fun _ _ a =>
    if a = argv then { output := "failed", err := some "exit status 1" }
    else { output := "", err := none }

/-! ## Running a computation -/

theorem bind_run {α β : Type} (m : M α) (f : α → M β) (s : Run) :
    (m >>= f) s = match m s with
      | Res.ok a s1 => f a s1
      | Res.halt e s1 => Res.halt e s1 := rfl

theorem pure_run {α : Type} (a : α) (s : Run) : (pure a : M α) s = Res.ok a s := rfl

theorem ite_run {α : Type} (c : Prop) [Decidable c] (a b : M α) (s : Run) :
    (if c then a else b) s = if c then a s else b s := by
  split <;> rfl

/-! ## Reasoning about runs -/

theorem sat_ok {α : Type} (a : α) (s : Run) (Q : α → Run → Prop) (H : Fatal → Run → Prop) :
    (Res.ok a s).Sat Q H ↔ Q a s := Iff.rfl

theorem sat_halt {α : Type} (e : Fatal) (s : Run) (Q : α → Run → Prop)
    (H : Fatal → Run → Prop) : (Res.halt e s : Res α).Sat Q H ↔ H e s := Iff.rfl

/-- Any property of the exit status and the final state, as a condition on the result. -/
theorem sat_status_run {α : Type} (r : Res α) (P : Option Fatal → Run → Prop) :
    r.Sat (fun _ s => P none s) (fun e s => P (some e) s) ↔ P r.status r.run := by
  cases r <;> exact Iff.rfl

theorem sat_bind {α β : Type} (m : M α) (f : α → M β) (s : Run) (Q : β → Run → Prop)
    (H : Fatal → Run → Prop) :
    ((m >>= f) s).Sat Q H ↔ (m s).Sat (fun a s1 => (f a s1).Sat Q H) H := by
  show (match m s with
      | Res.ok a s1 => f a s1
      | Res.halt e s1 => Res.halt e s1).Sat Q H ↔ _
  cases m s <;> exact Iff.rfl

theorem sat_pure {α : Type} (a : α) (s : Run) (Q : α → Run → Prop) (H : Fatal → Run → Prop) :
    ((pure a : M α) s).Sat Q H ↔ Q a s := Iff.rfl

theorem sat_ite {α : Type} (c : Prop) [Decidable c] (a b : M α) (s : Run)
    (Q : α → Run → Prop) (H : Fatal → Run → Prop) :
    ((if c then a else b) s).Sat Q H ↔ (c → (a s).Sat Q H) ∧ (¬c → (b s).Sat Q H) := by
  by_cases h : c <;> simp [h]

theorem sat_logPrint (msg : String) (s : Run) (Q : Unit → Run → Prop)
    (H : Fatal → Run → Prop) :
    (logPrint msg s).Sat Q H ↔ Q () { s with logs := s.logs ++ [msg] } := Iff.rfl

theorem sat_Fatalln {α : Type} (msg : String) (s : Run) (Q : α → Run → Prop)
    (H : Fatal → Run → Prop) :
    ((Fatalln msg : M α) s).Sat Q H ↔
      H (Fatal.fatalln msg) { s with logs := s.logs ++ [msg] } := Iff.rfl

theorem sat_ExitOnError (err : Option String) (msg : String) (s : Run)
    (Q : Unit → Run → Prop) (H : Fatal → Run → Prop) :
    (ExitOnError err msg s).Sat Q H ↔
      (err = none → Q () s) ∧ (∀ e, err = some e → H (Fatal.exitOnError e msg) s) := by
  cases err <;> simp [ExitOnError, Res.Sat]

theorem sat_MkdirAll (w : World) (path : String) (s : Run) (Q : Option String → Run → Prop)
    (H : Fatal → Run → Prop) :
    (MkdirAll w path s).Sat Q H ↔
      Q (w.MkdirAll s.trace path) { s with trace := s.trace ++ [Effect.mkdirAll path] } :=
  Iff.rfl

theorem sat_Getwd (w : World) (s : Run) (Q : String × Option String → Run → Prop)
    (H : Fatal → Run → Prop) :
    (Getwd w s).Sat Q H ↔
      (w.Getwd s.trace = none → Q (s.cwd, none) s) ∧
        (∀ e, w.Getwd s.trace = some e → Q ("", some e) s) := by
  unfold Getwd
  cases w.Getwd s.trace <;> simp [Res.Sat]

theorem sat_Chdir (w : World) (dir : String) (s : Run) (Q : Option String → Run → Prop)
    (H : Fatal → Run → Prop) :
    (Chdir w dir s).Sat Q H ↔
      (w.Chdir s.trace dir = none →
        Q none { s with cwd := chdirTarget s.cwd dir, trace := s.trace ++ [Effect.chdir dir] }) ∧
      (∀ e, w.Chdir s.trace dir = some e →
        Q (some e) { s with trace := s.trace ++ [Effect.chdir dir] }) := by
  unfold Chdir
  cases w.Chdir s.trace dir <;> simp [Res.Sat]

theorem sat_CombinedOutput (w : World) (dir : String) (argv : List String) (p : Policy)
    (s : Run) (Q : CmdResult → Run → Prop) (H : Fatal → Run → Prop) :
    (CombinedOutput w dir argv p s).Sat Q H ↔
      Q (w.Exec s.trace dir argv) { s with trace := s.trace ++ [Effect.exec dir argv p] } :=
  Iff.rfl

theorem sat_RecursiveSearchReplaceFiles (w : World) (root : String)
    (r : List (String × String)) (s : Run) (Q : Option String → Run → Prop)
    (H : Fatal → Run → Prop) :
    (RecursiveSearchReplaceFiles w root r s).Sat Q H ↔
      Q (w.RecursiveSearchReplaceFiles s.trace root r)
        { s with trace := s.trace ++ [Effect.searchReplace root r] } :=
  Iff.rfl

/-! ## The prelude of `main` -/

theorem exists_last_three {α : Type} (l : List α) (h : 3 ≤ l.length) :
    ∃ lead a b c, l = lead ++ [a, b, c] := by
  rcases List.eq_nil_or_concat l with h0 | ⟨l1, c, rfl⟩
  · simp [h0] at h
  rcases List.eq_nil_or_concat l1 with h1 | ⟨l2, b, rfl⟩
  · simp [h1] at h
  rcases List.eq_nil_or_concat l2 with h2 | ⟨l3, a, rfl⟩
  · simp [h2] at h
  exact ⟨l3, a, b, c, by simp⟩

theorem getD_append_add {α : Type} (lead tail : List α) (k : Nat) (d : α) :
    (lead ++ tail).getD (lead.length + k) d = tail.getD k d := by
  induction lead with
  | nil => simp
  | cons x xs ih =>
    have e : (x :: xs).length + k = (xs.length + k) + 1 := by simp; omega
    rw [List.cons_append, e, List.getD_cons_succ, ih]

theorem getD_last_three {α : Type} (lead : List α) (a b c d : α) :
    (lead ++ [a, b, c]).getD ((lead ++ [a, b, c]).length - 3) d = a ∧
    (lead ++ [a, b, c]).getD ((lead ++ [a, b, c]).length - 2) d = b ∧
    (lead ++ [a, b, c]).getD ((lead ++ [a, b, c]).length - 1) d = c := by
  have e3 : (lead ++ [a, b, c]).length - 3 = lead.length + 0 := by simp
  have e2 : (lead ++ [a, b, c]).length - 2 = lead.length + 1 := by simp
  have e1 : (lead ++ [a, b, c]).length - 1 = lead.length + 2 := by simp
  rw [e3, e2, e1, getD_append_add, getD_append_add, getD_append_add]
  simp

theorem extractNames_eq (w : World) (gopath dirInput : String) (s : Run)
    (lead : List String) (a b c : String)
    (hl : Split (Trim dirInput "/") '/' = lead ++ [a, b, c]) :
    extractNames w gopath dirInput s =
      Res.ok { trimmedPath := Trim dirInput "/",
               fullpath := w.Join [gopath, "src", Trim dirInput "/"],
               repoName := a, repoUser := b, projectName := c, dbName := c,
               testDbName := c ++ "-test" } s := by
  have hlen : ¬ (lead ++ [a, b, c]).length < 3 := by simp
  obtain ⟨h3, h2, h1⟩ := getD_last_three lead a b c ""
  simp only [extractNames, ite_run, hl, if_neg hlen, pure_run, h3, h2, h1]

theorem IsValidGoPath_iff (w : World) (p : String) : IsValidGoPath w p = true ↔ p ∈ w.GoPaths := by
  simp [IsValidGoPath]

/-! ## Fail-fast steps -/

theorem sat_mono {α : Type} {r : Res α} {Q Q' : α → Run → Prop} {H H' : Fatal → Run → Prop}
    (h : r.Sat Q H) (hq : ∀ a s, Q a s → Q' a s) (hh : ∀ e s, H e s → H' e s) : r.Sat Q' H' := by
  cases r with
  | ok a s => exact hq a s h
  | halt e s => exact hh e s h

theorem snoc_eq_append_cons {α : Type} {t p post : List α} {x y : α}
    (h : t ++ [x] = p ++ y :: post) :
    (post = [] ∧ p = t ∧ y = x) ∨ ∃ post1, post = post1 ++ [x] ∧ t = p ++ y :: post1 := by
  rcases List.eq_nil_or_concat post with h0 | ⟨post1, z, hz⟩
  · subst h0
    have h1 : t ++ [x] = p ++ [y] := h
    obtain ⟨h2, h3⟩ := List.append_inj' h1 rfl
    simp only [List.cons.injEq, and_true] at h3
    exact Or.inl ⟨rfl, h2.symm, h3.symm⟩
  · rw [List.concat_eq_append] at hz
    subst hz
    have h1 : t ++ [x] = (p ++ y :: post1) ++ [z] := by simpa using h
    obtain ⟨h2, h3⟩ := List.append_inj' h1 rfl
    simp only [List.cons.injEq, and_true] at h3
    subst h3
    exact Or.inr ⟨post1, rfl, h2⟩

theorem noFailure_nil (w : World) : NoFailure w [] := by
  refine ⟨fun p dir argv pol post e h => ?_⟩
  simp at h

theorem noFailure_snoc {w : World} {t : List Effect} {x : Effect} (ht : NoFailure w t)
    (hx : ∀ dir argv pol e, x = Effect.exec dir argv pol → argv ∈ failFastSteps →
      (w.Exec t dir argv).err ≠ some e) : NoFailure w (t ++ [x]) := by
  refine ⟨fun p dir argv pol post e h hff => ?_⟩
  rcases snoc_eq_append_cons h with ⟨_, rfl, hy⟩ | ⟨post1, _, h1⟩
  · exact hx dir argv pol e hy.symm hff
  · exact ht.ok p dir argv pol post1 e h1 hff

theorem haltsAtFailure_of_noFailure {w : World} {t : List Effect} (st : Option Fatal)
    (ht : NoFailure w t) : HaltsAtFailure w st t :=
  ⟨fun p dir argv pol post e h hff herr => absurd herr (ht.ok p dir argv pol post e h hff)⟩

theorem haltsAtFailure_snoc {w : World} {t : List Effect} {dir : String} {argv : List String}
    {e : String} (pol : Policy) (ht : NoFailure w t) (herr : (w.Exec t dir argv).err = some e) :
    HaltsAtFailure w (some (Fatal.exitOnError e (w.Exec t dir argv).output))
      (t ++ [Effect.exec dir argv pol]) := by
  refine ⟨fun p dir1 argv1 pol1 post e1 h hff herr1 => ?_⟩
  rcases snoc_eq_append_cons h with ⟨hpost, rfl, hy⟩ | ⟨post1, _, h1⟩
  · simp only [Effect.exec.injEq] at hy
    obtain ⟨rfl, rfl, rfl⟩ := hy
    rw [herr] at herr1
    simp only [Option.some.injEq] at herr1
    subst herr1
    exact ⟨hpost, rfl⟩
  · exact absurd herr1 (ht.ok p dir1 argv1 pol1 post1 e1 h1 hff)

theorem noFailure_snoc_mkdirAll {w : World} {t : List Effect} (path : String)
    (ht : NoFailure w t) : NoFailure w (t ++ [Effect.mkdirAll path]) :=
  noFailure_snoc ht (fun _ _ _ _ hx => by cases hx)

theorem noFailure_snoc_chdir {w : World} {t : List Effect} (dir : String)
    (ht : NoFailure w t) : NoFailure w (t ++ [Effect.chdir dir]) :=
  noFailure_snoc ht (fun _ _ _ _ hx => by cases hx)

theorem noFailure_snoc_searchReplace {w : World} {t : List Effect} (root : String)
    (r : List (String × String)) (ht : NoFailure w t) :
    NoFailure w (t ++ [Effect.searchReplace root r]) :=
  noFailure_snoc ht (fun _ _ _ _ hx => by cases hx)

theorem noFailure_snoc_exec {w : World} {t : List Effect} {dir : String} {argv : List String}
    (pol : Policy) (ht : NoFailure w t)
    (h : argv ∈ failFastSteps → (w.Exec t dir argv).err = none) :
    NoFailure w (t ++ [Effect.exec dir argv pol]) := by
  refine noFailure_snoc ht ?_
  intro dir1 argv1 pol1 e hx hff
  cases hx
  simp [h hff]

theorem setupDatabase_failFast (w : World) (fullpath : String) (s : Run)
    (h : NoFailure w s.trace) :
    (setupDatabase w fullpath s).Sat (fun _ s1 => NoFailure w s1.trace)
      (fun e s1 => HaltsAtFailure w (some e) s1.trace) := by
  simp only [setupDatabase, sat_bind, sat_logPrint, sat_CombinedOutput, sat_ExitOnError]
  refine ⟨fun h1 => ?_, fun e he => haltsAtFailure_snoc _ h he⟩
  refine noFailure_snoc_exec _ (noFailure_snoc_exec _ h (fun _ => h1)) ?_
  intro hff
  simp [failFastSteps] at hff

theorem copyTemplate_failFast (w : World) (dir fullpath : String) (s : Run)
    (h : NoFailure w s.trace) :
    (copyTemplate w dir fullpath s).Sat (fun _ s1 => NoFailure w s1.trace)
      (fun e s1 => HaltsAtFailure w (some e) s1.trace) := by
  have hcp : ["cp", "-rf", ".", fullpath] ∈ failFastSteps → ∀ t,
      (w.Exec t "" ["cp", "-rf", ".", fullpath]).err = none := by
    intro hff
    simp [failFastSteps] at hff
  simp only [copyTemplate, sat_bind, sat_logPrint, sat_MkdirAll, sat_Getwd, sat_Chdir,
    sat_CombinedOutput, sat_ExitOnError]
  repeat' first
    | apply And.intro
    | intro _
  all_goals first
    | (apply haltsAtFailure_of_noFailure
       repeat' first
         | assumption
         | apply noFailure_snoc_mkdirAll
         | apply noFailure_snoc_chdir
         | apply noFailure_snoc_exec
         | exact fun hff => hcp hff _)
    | (repeat' first
         | assumption
         | apply noFailure_snoc_mkdirAll
         | apply noFailure_snoc_chdir
         | apply noFailure_snoc_exec
         | exact fun hff => hcp hff _)

theorem interpolate_failFast (w : World) (n : Names) (s : Run) (h : NoFailure w s.trace) :
    (interpolate w n s).Sat (fun _ s1 => NoFailure w s1.trace)
      (fun e s1 => HaltsAtFailure w (some e) s1.trace) := by
  simp only [interpolate, sat_bind, sat_logPrint, sat_RecursiveSearchReplaceFiles,
    sat_ExitOnError]
  exact ⟨fun _ => noFailure_snoc_searchReplace _ _ h,
    fun _ _ => haltsAtFailure_of_noFailure _ (noFailure_snoc_searchReplace _ _ h)⟩

theorem setupSteps_failFast (w : World) (templateInput : String) (n : Names) (s : Run)
    (h : NoFailure w s.trace) :
    (setupSteps w templateInput n s).Sat (fun _ s1 => NoFailure w s1.trace)
      (fun e s1 => HaltsAtFailure w (some e) s1.trace) := by
  have hbash : ∀ t dir, ["bash", "scripts/db-bootstrap"] ∈ failFastSteps →
      (w.Exec t dir ["bash", "scripts/db-bootstrap"]).err = none := by
    intro t dir hff
    simp [failFastSteps] at hff
  have hhg : ∀ t dir, ["hg", "init"] ∈ failFastSteps → (w.Exec t dir ["hg", "init"]).err = none := by
    intro t dir hff
    simp [failFastSteps] at hff
  have hgt : ∀ t dir, ["godep", "go", "test", "./..."] ∈ failFastSteps →
      (w.Exec t dir ["godep", "go", "test", "./..."]).err = none := by
    intro t dir hff
    simp [failFastSteps] at hff
  have ht : ∀ t dir, ["go", "test", "./..."] ∈ failFastSteps →
      (w.Exec t dir ["go", "test", "./..."]).err = none := by
    intro t dir hff
    simp [failFastSteps] at hff
  simp only [setupSteps, setupDatabase, sat_bind, sat_ite, sat_pure, sat_logPrint,
    sat_CombinedOutput, sat_ExitOnError]
  repeat' first
    | apply And.intro
    | intro _
  all_goals first
    | (apply haltsAtFailure_snoc
       · repeat' first
           | assumption
           | apply noFailure_snoc_exec
           | exact fun _ => by assumption
           | exact hhg _ _
           | exact hbash _ _
       · assumption)
    | (repeat' first
         | assumption
         | apply noFailure_snoc_exec
         | exact fun _ => by assumption
         | exact hhg _ _
         | exact hgt _ _
         | exact ht _ _
         | exact hbash _ _)

theorem tail_failFast (w : World) (dir templateInput : String) (n : Names) (s : Run)
    (h : NoFailure w s.trace) :
    (copyTemplate w dir n.fullpath s).Sat
      (fun _ s1 => (interpolate w n s1).Sat
        (fun _ s2 => (setupSteps w templateInput n s2).Sat
          (fun _ s3 => HaltsAtFailure w none s3.trace)
          (fun e s3 => HaltsAtFailure w (some e) s3.trace))
        (fun e s2 => HaltsAtFailure w (some e) s2.trace))
      (fun e s1 => HaltsAtFailure w (some e) s1.trace) :=
  sat_mono (copyTemplate_failFast w dir n.fullpath s h)
    (fun _ s1 h1 => sat_mono (interpolate_failFast w n s1 h1)
      (fun _ s2 h2 => sat_mono (setupSteps_failFast w templateInput n s2 h2)
        (fun _ _ h3 => haltsAtFailure_of_noFailure none h3) (fun _ _ h3 => h3))
      (fun _ _ h2 => h2))
    (fun _ _ h1 => h1)

/-- A property of `main` follows from the property at each early exit and from the
property of the three effectful stages run with the values of a successful
prelude. -/
theorem sat_main_of (w : World) (f : Flags) (s : Run) (Q : Unit → Run → Prop)
    (H : Fatal → Run → Prop)
    (hfatal : ∀ msg, H (Fatal.fatalln msg) { s with logs := s.logs ++ [msg] })
    (htemplate : ∀ e, H (Fatal.exitOnError e "") s)
    (htail : ∀ gopath n, f.dirInput ≠ "" → resolveGopath w f.gopathInput s = Res.ok gopath s →
      extractNames w gopath f.dirInput s = Res.ok n s →
      (w.GetProjectTemplateDir f.templateInput).2 = none →
      (copyTemplate w (w.GetProjectTemplateDir f.templateInput).1 n.fullpath s).Sat
        (fun _ s1 => (interpolate w n s1).Sat
          (fun _ s2 => (setupSteps w f.templateInput n s2).Sat Q H) H) H) :
    (main w f s).Sat Q H := by
  simp only [main, sat_bind, sat_ite, sat_pure, sat_Fatalln, sat_ExitOnError]
  refine ⟨fun _ => hfatal _, fun hdir => ?_⟩
  cases hg : resolveGopath w f.gopathInput s with
  | halt e s1 =>
    simp only [resolveGopath, ite_run, pure_run, Fatalln] at hg
    split at hg
    · cases hg
      exact hfatal _
    · split at hg
      · split at hg
        · cases hg
        · cases hg
          exact hfatal _
      · cases hg
  | ok gopath s1 =>
    have hs : s1 = s := by
      simp only [resolveGopath, ite_run, pure_run, Fatalln] at hg
      split at hg
      · cases hg
      · split at hg
        · split at hg
          · cases hg
            rfl
          · cases hg
        · cases hg
          rfl
    subst hs
    rw [sat_ok]
    cases hn : extractNames w gopath f.dirInput s1 with
    | halt e s2 =>
      simp only [extractNames, ite_run, pure_run, Fatalln] at hn
      split at hn
      · cases hn
        exact hfatal _
      · cases hn
    | ok n s2 =>
      have hs : s2 = s1 := by
        simp only [extractNames, ite_run, pure_run, Fatalln] at hn
        split at hn
        · cases hn
        · cases hn
          rfl
      subst hs
      rw [sat_ok]
      exact ⟨fun ht => htail gopath n hdir hg hn ht, fun e _ => htemplate e⟩

theorem main_haltsAtFailure (w : World) (f : Flags) (cwd : String) :
    HaltsAtFailure w (main w f (start cwd)).status (main w f (start cwd)).run.trace := by
  refine (sat_status_run (main w f (start cwd)) (fun st r => HaltsAtFailure w st r.trace)).mp ?_
  refine sat_main_of w f (start cwd) _ _ ?_ ?_ ?_
  · intro msg
    exact haltsAtFailure_of_noFailure _ (noFailure_nil w)
  · intro e
    exact haltsAtFailure_of_noFailure _ (noFailure_nil w)
  · intro gopath n _ _ _ _
    exact tail_failFast w _ _ n _ (noFailure_nil w)

/-! ## The successful run -/

theorem setupSteps_ok (w : World) (templateInput : String) (n : Names) (s : Run) :
    (setupSteps w templateInput n s).Sat
      (fun _ s1 => s1.trace = s.trace ++ plannedSteps templateInput n ∧ s1.cwd = s.cwd)
      (fun _ _ => True) := by
  simp only [setupSteps, setupDatabase, sat_bind, sat_ite, sat_pure, sat_logPrint,
    sat_CombinedOutput, sat_ExitOnError]
  repeat' first
    | apply And.intro
    | intro _
  all_goals simp_all [plannedSteps]

theorem interpolate_ok (w : World) (n : Names) (s : Run) :
    (interpolate w n s).Sat
      (fun _ s1 => s1.trace = s.trace ++ [Effect.searchReplace n.fullpath (replacers w n)] ∧
        s1.cwd = s.cwd)
      (fun _ _ => True) := by
  simp only [interpolate, sat_bind, sat_logPrint, sat_RecursiveSearchReplaceFiles,
    sat_ExitOnError]
  exact ⟨fun _ => ⟨trivial, trivial⟩, fun _ _ => trivial⟩

theorem copyTemplate_ok (w : World) (dir fullpath : String) (s : Run) :
    (copyTemplate w dir fullpath s).Sat
      (fun _ s1 =>
        s1.trace = s.trace ++
          [ Effect.mkdirAll fullpath, Effect.chdir dir,
            Effect.exec "" ["cp", "-rf", ".", fullpath] Policy.failFast, Effect.chdir s.cwd ] ∧
        s1.cwd = chdirTarget (chdirTarget s.cwd dir) s.cwd)
      (fun _ _ => True) := by
  simp only [copyTemplate, sat_bind, sat_logPrint, sat_MkdirAll, sat_Getwd, sat_Chdir,
    sat_CombinedOutput, sat_ExitOnError]
  repeat' first
    | apply And.intro
    | intro _
  all_goals simp_all

theorem main_success (w : World) (f : Flags) (cwd : String)
    (h : (main w f (start cwd)).status = none) :
    ∃ gopath n, f.dirInput ≠ "" ∧
      resolveGopath w f.gopathInput (start cwd) = Res.ok gopath (start cwd) ∧
      extractNames w gopath f.dirInput (start cwd) = Res.ok n (start cwd) ∧
      (w.GetProjectTemplateDir f.templateInput).2 = none ∧
      (main w f (start cwd)).run.trace =
        [ Effect.mkdirAll n.fullpath,
          Effect.chdir (w.GetProjectTemplateDir f.templateInput).1,
          Effect.exec "" ["cp", "-rf", ".", n.fullpath] Policy.failFast,
          Effect.chdir cwd,
          Effect.searchReplace n.fullpath (replacers w n) ] ++
        plannedSteps f.templateInput n ∧
      (main w f (start cwd)).run.cwd =
        chdirTarget (chdirTarget cwd (w.GetProjectTemplateDir f.templateInput).1) cwd := by
  revert h
  refine (sat_status_run (main w f (start cwd)) (fun st r => st = none →
    ∃ gopath n, f.dirInput ≠ "" ∧
      resolveGopath w f.gopathInput (start cwd) = Res.ok gopath (start cwd) ∧
      extractNames w gopath f.dirInput (start cwd) = Res.ok n (start cwd) ∧
      (w.GetProjectTemplateDir f.templateInput).2 = none ∧
      r.trace =
        [ Effect.mkdirAll n.fullpath,
          Effect.chdir (w.GetProjectTemplateDir f.templateInput).1,
          Effect.exec "" ["cp", "-rf", ".", n.fullpath] Policy.failFast,
          Effect.chdir cwd,
          Effect.searchReplace n.fullpath (replacers w n) ] ++
        plannedSteps f.templateInput n ∧
      r.cwd = chdirTarget (chdirTarget cwd (w.GetProjectTemplateDir f.templateInput).1) cwd)).mp ?_
  refine sat_main_of w f (start cwd) _ _ ?_ ?_ ?_
  · intro msg hst
    cases hst
  · intro e hst
    cases hst
  · intro gopath n hdir hg hn ht
    refine sat_mono (copyTemplate_ok w _ n.fullpath (start cwd)) ?_ ?_
    · intro _ s1 h1
      refine sat_mono (interpolate_ok w n s1) ?_ ?_
      · intro _ s2 h2
        refine sat_mono (setupSteps_ok w f.templateInput n s2) ?_ ?_
        · intro _ s3 h3 _
          refine ⟨gopath, n, hdir, hg, hn, ht, ?_, ?_⟩
          · rw [h3.1, h2.1, h1.1]
            simp [start]
          · rw [h3.2, h2.2, h1.2]
            rfl
        · intro e s3 _ hst
          cases hst
      · intro e s2 _ hst
        cases hst
    · intro e s1 _ hst
      cases hst

theorem not_git_of_bitbucket (host : String) (h : HasPrefix host "bitbucket" = true) :
    HasPrefix host "git" = false := by
  unfold HasPrefix at h ⊢
  cases hd : host.data with
  | nil =>
    rw [hd] at h
    exact absurd h (by decide)
  | cons c cs =>
    rw [hd] at h
    have hc : c = 'b' := by
      have h1 : ('b' == c && List.isPrefixOf "itbucket".data cs) = true := h
      simp only [Bool.and_eq_true, beq_iff_eq] at h1
      exact h1.1.symm
    subst hc
    rfl

/-! ## Two runs that differ in the best-effort steps -/

theorem sim_bind {α β γ δ : Type} {R : α → β → Prop} {R' : γ → δ → Prop} {m1 : M α} {m2 : M β}
    {f : α → M γ} {g : β → M δ} (h1 : Sim R m1 m2) (h2 : ∀ a b, R a b → Sim R' (f a) (g b)) :
    Sim R' (m1 >>= f) (m2 >>= g) := by
  refine ⟨fun s1 s2 ht hc => ?_⟩
  have h := h1.agree s1 s2 ht hc
  rw [bind_run, bind_run]
  cases hm1 : m1 s1 with
  | ok a t1 =>
    cases hm2 : m2 s2 with
    | ok b t2 =>
      rw [hm1, hm2] at h
      exact (h2 a b h.1).agree t1 t2 h.2.1 h.2.2
    | halt e t2 =>
      rw [hm1, hm2] at h
      exact h.elim
  | halt e t1 =>
    cases hm2 : m2 s2 with
    | ok b t2 =>
      rw [hm1, hm2] at h
      exact h.elim
    | halt e2 t2 =>
      rw [hm1, hm2] at h
      exact h

theorem sim_bind_eq {α γ δ : Type} {R' : γ → δ → Prop} {m1 m2 : M α}
    {f : α → M γ} {g : α → M δ} (h1 : Sim Eq m1 m2) (h2 : ∀ a, Sim R' (f a) (g a)) :
    Sim R' (m1 >>= f) (m2 >>= g) :=
  sim_bind h1 (fun a _ hab => hab ▸ h2 a)

theorem sim_bind_any {α β γ δ : Type} {R' : γ → δ → Prop} {m1 : M α} {m2 : M β}
    {f : α → M γ} {g : β → M δ} (h1 : Sim (fun _ _ => True) m1 m2)
    (h2 : ∀ a b, Sim R' (f a) (g b)) : Sim R' (m1 >>= f) (m2 >>= g) :=
  sim_bind h1 (fun a b _ => h2 a b)

theorem sim_ite {α β : Type} {R : α → β → Prop} (c : Prop) [Decidable c] {a1 b1 : M α}
    {a2 b2 : M β} (h1 : c → Sim R a1 a2) (h2 : ¬c → Sim R b1 b2) :
    Sim R (if c then a1 else b1) (if c then a2 else b2) := by
  by_cases h : c
  · simpa [h] using h1 h
  · simpa [h] using h2 h

theorem sim_pure {α : Type} (a : α) : Sim Eq (pure a : M α) (pure a) :=
  ⟨fun _ _ ht hc => ⟨rfl, ht, hc⟩⟩

theorem sim_logPrint (m1 m2 : String) : Sim Eq (logPrint m1) (logPrint m2) :=
  ⟨fun _ _ ht hc => ⟨rfl, ht, hc⟩⟩

theorem sim_Fatalln {α β : Type} (R : α → β → Prop) (msg : String) :
    Sim R (Fatalln msg : M α) (Fatalln msg : M β) :=
  ⟨fun _ _ ht hc => ⟨rfl, ht, hc⟩⟩

theorem sim_ExitOnError (err : Option String) (msg : String) :
    Sim Eq (ExitOnError err msg) (ExitOnError err msg) := by
  refine ⟨fun s1 s2 ht hc => ?_⟩
  cases err with
  | none => exact ⟨rfl, ht, hc⟩
  | some e => exact ⟨rfl, ht, hc⟩

theorem sim_MkdirAll (w1 w2 : World) (h : w1.MkdirAll = w2.MkdirAll) (path : String) :
    Sim Eq (MkdirAll w1 path) (MkdirAll w2 path) := by
  refine ⟨fun s1 s2 ht hc => ?_⟩
  simp only [MkdirAll, Agree, h, ht, hc, and_self]

theorem sim_Getwd (w1 w2 : World) (h : w1.Getwd = w2.Getwd) : Sim Eq (Getwd w1) (Getwd w2) := by
  refine ⟨fun s1 s2 ht hc => ?_⟩
  simp only [Getwd, h, ht, hc]
  cases w2.Getwd s2.trace with
  | none => exact ⟨rfl, ht, hc⟩
  | some e => exact ⟨rfl, ht, hc⟩

theorem sim_Chdir (w1 w2 : World) (h : w1.Chdir = w2.Chdir) (dir : String) :
    Sim Eq (Chdir w1 dir) (Chdir w2 dir) := by
  refine ⟨fun s1 s2 ht hc => ?_⟩
  simp only [Chdir, h, ht, hc]
  cases w2.Chdir s2.trace dir with
  | none => exact ⟨rfl, rfl, rfl⟩
  | some e => exact ⟨rfl, rfl, rfl⟩

theorem sim_RecursiveSearchReplaceFiles (w1 w2 : World)
    (h : w1.RecursiveSearchReplaceFiles = w2.RecursiveSearchReplaceFiles) (root : String)
    (r : List (String × String)) :
    Sim Eq (RecursiveSearchReplaceFiles w1 root r) (RecursiveSearchReplaceFiles w2 root r) := by
  refine ⟨fun s1 s2 ht hc => ?_⟩
  simp only [RecursiveSearchReplaceFiles, Agree, h, ht, hc, and_self]

theorem sim_CombinedOutput_same (w1 w2 : World) (dir : String) (argv : List String)
    (p : Policy) (h : ∀ t, w2.Exec t dir argv = w1.Exec t dir argv) :
    Sim Eq (CombinedOutput w1 dir argv p) (CombinedOutput w2 dir argv p) := by
  refine ⟨fun s1 s2 ht hc => ?_⟩
  simp only [CombinedOutput, Agree, h, ht, hc, and_self]

theorem sim_CombinedOutput_any (w1 w2 : World) (dir : String) (argv : List String)
    (p : Policy) :
    Sim (fun _ _ => True) (CombinedOutput w1 dir argv p) (CombinedOutput w2 dir argv p) := by
  refine ⟨fun s1 s2 ht hc => ?_⟩
  simp only [CombinedOutput, Agree, ht, hc, and_self]

theorem main_sim (w : World) (exec2 : List Effect → String → List String → CmdResult)
    (f : Flags)
    (h : ∀ t dir argv, argv ∉ bestEffortSteps → exec2 t dir argv = w.Exec t dir argv) :
    Sim Eq (main w f) (main { w with Exec := exec2 } f) := by
  have hcp : ∀ fullpath, ["cp", "-rf", ".", fullpath] ∉ bestEffortSteps := by
    intro fullpath
    simp [bestEffortSteps]
  simp only [main, resolveGopath, extractNames, copyTemplate, interpolate, setupSteps,
    setupDatabase]
  repeat' first
    | exact sim_pure _
    | exact sim_logPrint _ _
    | exact sim_Fatalln _ _
    | exact sim_ExitOnError _ _
    | apply sim_ite
    | (refine sim_bind_eq (sim_logPrint _ _) ?_)
    | (refine sim_bind_eq (sim_ExitOnError _ _) ?_)
    | (refine sim_bind_eq (sim_pure _) ?_)
    | (refine sim_bind_eq (sim_MkdirAll _ _ rfl _) ?_)
    | (refine sim_bind_eq (sim_Getwd _ _ rfl) ?_)
    | (refine sim_bind_eq (sim_Chdir _ _ rfl _) ?_)
    | (refine sim_bind_eq (sim_RecursiveSearchReplaceFiles _ _ rfl _ _) ?_)
    | (refine sim_bind_eq (sim_CombinedOutput_same _ _ _ _ _ (fun t => h t _ _ (by decide))) ?_)
    | (refine sim_bind_eq (sim_CombinedOutput_same _ _ _ _ _ (fun t => h t _ _ (hcp _))) ?_)
    | (refine sim_bind_any (sim_CombinedOutput_any _ _ _ _ _) ?_)
    | (refine sim_bind_eq ?_ ?_)
    | intro _

/-! ## Every run follows the plan -/

theorem setupSteps_follows_plan (w : World) (templateInput : String) (n : Names) (s : Run) :
    (setupSteps w templateInput n s).Sat
      (fun _ s1 => s1.trace <+: s.trace ++ plannedSteps templateInput n)
      (fun _ s1 => s1.trace <+: s.trace ++ plannedSteps templateInput n) := by
  simp only [setupSteps, setupDatabase, sat_bind, sat_ite, sat_pure, sat_logPrint,
    sat_CombinedOutput, sat_ExitOnError]
  repeat' first
    | apply And.intro
    | intro _
  all_goals simp_all [plannedSteps, List.append_assoc, List.prefix_append_right_inj]

theorem copyTemplate_follows_plan (w : World) (dir fullpath : String) (s : Run) :
    (copyTemplate w dir fullpath s).Sat
      (fun _ s1 => s1.trace = s.trace ++
          [ Effect.mkdirAll fullpath, Effect.chdir dir,
            Effect.exec "" ["cp", "-rf", ".", fullpath] Policy.failFast, Effect.chdir s.cwd ])
      (fun _ s1 => s1.trace <+: s.trace ++
          [ Effect.mkdirAll fullpath, Effect.chdir dir,
            Effect.exec "" ["cp", "-rf", ".", fullpath] Policy.failFast, Effect.chdir s.cwd ]) := by
  simp only [copyTemplate, sat_bind, sat_logPrint, sat_MkdirAll, sat_Getwd, sat_Chdir,
    sat_CombinedOutput, sat_ExitOnError]
  repeat' first
    | apply And.intro
    | intro _
  all_goals simp_all [List.append_assoc, List.prefix_append_right_inj]

theorem interpolate_follows_plan (w : World) (n : Names) (s : Run) :
    (interpolate w n s).Sat
      (fun _ s1 => s1.trace = s.trace ++ [Effect.searchReplace n.fullpath (replacers w n)])
      (fun _ s1 => s1.trace <+: s.trace ++ [Effect.searchReplace n.fullpath (replacers w n)]) := by
  simp only [interpolate, sat_bind, sat_logPrint, sat_RecursiveSearchReplaceFiles,
    sat_ExitOnError]
  exact ⟨fun _ => trivial, fun _ _ => List.prefix_refl _⟩

/-- The trace of a run is empty (the run ended in the prelude), or the prelude
succeeded and the trace is a prefix of: MkdirAll, Chdir to the template
directory, `cp`, Chdir back, search-replace, then the planned setup steps. -/
theorem main_follows_plan (w : World) (f : Flags) (cwd : String) :
    (main w f (start cwd)).run.trace = [] ∨
    ∃ gopath n,
      resolveGopath w f.gopathInput (start cwd) = Res.ok gopath (start cwd) ∧
      extractNames w gopath f.dirInput (start cwd) = Res.ok n (start cwd) ∧
      (main w f (start cwd)).run.trace <+:
        [ Effect.mkdirAll n.fullpath,
          Effect.chdir (w.GetProjectTemplateDir f.templateInput).1,
          Effect.exec "" ["cp", "-rf", ".", n.fullpath] Policy.failFast,
          Effect.chdir cwd,
          Effect.searchReplace n.fullpath (replacers w n) ] ++
        plannedSteps f.templateInput n := by
  refine (sat_status_run (main w f (start cwd)) (fun _ r => r.trace = [] ∨
    ∃ gopath n,
      resolveGopath w f.gopathInput (start cwd) = Res.ok gopath (start cwd) ∧
      extractNames w gopath f.dirInput (start cwd) = Res.ok n (start cwd) ∧
      r.trace <+:
        [ Effect.mkdirAll n.fullpath,
          Effect.chdir (w.GetProjectTemplateDir f.templateInput).1,
          Effect.exec "" ["cp", "-rf", ".", n.fullpath] Policy.failFast,
          Effect.chdir cwd,
          Effect.searchReplace n.fullpath (replacers w n) ] ++
        plannedSteps f.templateInput n)).mp ?_
  refine sat_main_of w f (start cwd) _ _ ?_ ?_ ?_
  · intro msg
    exact Or.inl rfl
  · intro e
    exact Or.inl rfl
  · intro gopath n hdir hg hn ht
    refine sat_mono (copyTemplate_follows_plan w _ n.fullpath (start cwd)) ?_ ?_
    · intro _ s1 h1
      refine sat_mono (interpolate_follows_plan w n s1) ?_ ?_
      · intro _ s2 h2
        refine sat_mono (setupSteps_follows_plan w f.templateInput n s2) ?_ ?_
        · intro _ s3 h3
          refine Or.inr ⟨gopath, n, hg, hn, ?_⟩
          rw [h2, h1] at h3
          simpa [start] using h3
        · intro e s3 h3
          refine Or.inr ⟨gopath, n, hg, hn, ?_⟩
          rw [h2, h1] at h3
          simpa [start] using h3
      · intro e s2 h2
        refine Or.inr ⟨gopath, n, hg, hn, ?_⟩
        rw [h1] at h2
        refine List.IsPrefix.trans h2 ?_
        simp [start]
    · intro e s1 h1
      refine Or.inr ⟨gopath, n, hg, hn, ?_⟩
      refine List.IsPrefix.trans h1 ?_
      simp [start]

theorem searchReplace_not_planned (templateInput : String) (n : Names) (root : String)
    (repl : List (String × String)) :
    Effect.searchReplace root repl ∉ plannedSteps templateInput n := by
  unfold plannedSteps
  intro h
  simp only [List.mem_append, List.mem_cons, List.mem_singleton] at h
  split_ifs at h <;> simp at h

/-! ## Early exits -/

theorem main_early_exit (w : World) (f : Flags) (cwd : String)
    (h : f.dirInput = "" ∨ w.GoPaths = [] ∨
      (f.gopathInput ≠ "" ∧
        ((w.Abs f.gopathInput).2 ≠ none ∨ (w.Abs f.gopathInput).1 ∉ w.GoPaths)) ∨
      (Split (Trim f.dirInput "/") '/').length < 3 ∨
      (w.GetProjectTemplateDir f.templateInput).2 ≠ none) :
    (main w f (start cwd)).run.trace = [] ∧ (main w f (start cwd)).status ≠ none := by
  refine (sat_status_run (main w f (start cwd)) (fun st r => r.trace = [] ∧ st ≠ none)).mp ?_
  simp only [main, resolveGopath, extractNames, sat_bind, sat_ite, sat_pure, sat_Fatalln,
    sat_ExitOnError, start]
  simp only [IsValidGoPath_iff, List.length_eq_zero, Bool.and_eq_true, decide_eq_true_eq]
  refine ⟨fun _ => by simp, fun h1 => ⟨fun _ => by simp, fun h2 => ⟨fun h3 =>
    ⟨fun h4 => ⟨fun _ => by simp, fun h5 => ⟨fun h6 => ?_, fun _ _ => by simp⟩⟩,
      fun _ => by simp⟩,
    fun h3 => ⟨fun _ => by simp, fun h5 => ⟨fun h6 => ?_, fun _ _ => by simp⟩⟩⟩⟩⟩
  · exfalso
    simp_all
  · exfalso
    simp_all

theorem main_three_parts (w : World) (f : Flags) (cwd gopath : String)
    (hdir : f.dirInput ≠ "")
    (hroot : resolveGopath w f.gopathInput (start cwd) = Res.ok gopath (start cwd))
    (h : (Split (Trim f.dirInput "/") '/').length < 3) :
    (main w f (start cwd)).status = some (Fatal.fatalln threePartsMessage) := by
  simp only [main, bind_run, ite_run, if_neg hdir, pure_run, hroot, extractNames, if_pos h,
    Fatalln, Res.status, threePartsMessage]

theorem agree_eq {α : Type} {r1 r2 : Res α} (h : Agree Eq r1 r2) :
    r1.run.trace = r2.run.trace ∧ r1.status = r2.status ∧ r1.run.cwd = r2.run.cwd := by
  cases r1 with
  | ok a s1 =>
    cases r2 with
    | ok b s2 => exact ⟨h.2.1, rfl, h.2.2⟩
    | halt e s2 => exact h.elim
  | halt e1 s1 =>
    cases r2 with
    | ok b s2 => exact h.elim
    | halt e2 s2 => exact ⟨h.2.1, congrArg some h.1, h.2.2⟩

theorem chdirTarget_abs (cwd dir : String) (h : HasPrefix dir "/" = true)
    (hclean : pathClean dir = dir) : chdirTarget cwd dir = dir := by
  simp [chdirTarget, h, hclean]

/-! ## The claims -/

/-- C1: when the trimmed `-dir` splits into at least three segments, the extraction
of lines 58-71 succeeds for every gopath, the segments are some leading segments
followed by `repoName`, `repoUser` and `projectName` in this order (so the three
names are the third-to-last, second-to-last and last segment, and the leading
ones are ignored), `dbName` is the project name and `testDbName` the project name
followed by `-test`; and whenever a run of `main` reaches the interpolation, the
replacers it passes are built from these names. -/
theorem extractNames_last_three (w : World) (f : Flags) (cwd : String)
    (h : 3 ≤ (Split (Trim f.dirInput "/") '/').length) :
    (∀ gopath s, ∃ n lead, extractNames w gopath f.dirInput s = Res.ok n s ∧
      Split (Trim f.dirInput "/") '/' = lead ++ [n.repoName, n.repoUser, n.projectName] ∧
      n.dbName = n.projectName ∧ n.testDbName = n.projectName ++ "-test") ∧
    (∀ root repl, Effect.searchReplace root repl ∈ (main w f (start cwd)).run.trace →
      ∃ gopath n lead, extractNames w gopath f.dirInput (start cwd) = Res.ok n (start cwd) ∧
        Split (Trim f.dirInput "/") '/' = lead ++ [n.repoName, n.repoUser, n.projectName] ∧
        root = n.fullpath ∧ repl = replacers w n) := by
  obtain ⟨lead, a, b, c, hl⟩ := exists_last_three _ h
  refine ⟨fun gopath s => ⟨_, lead, extractNames_eq w gopath f.dirInput s lead a b c hl, hl,
    rfl, rfl⟩, ?_⟩
  intro root repl hmem
  rcases main_follows_plan w f cwd with hnil | ⟨gopath, n, _, hn, hpre⟩
  · rw [hnil] at hmem
    cases hmem
  · have hn2 := extractNames_eq w gopath f.dirInput (start cwd) lead a b c hl
    have hn' : Res.ok n (start cwd) = _ := hn.symm.trans hn2
    simp only [Res.ok.injEq, and_true] at hn'
    have hmem2 := hpre.subset hmem
    simp only [List.mem_append, List.mem_cons, List.mem_singleton, Effect.searchReplace.injEq,
      reduceCtorEq, false_or, List.not_mem_nil, or_false] at hmem2
    rcases hmem2 with ⟨hroot, hrepl⟩ | hplan
    · refine ⟨gopath, n, lead, hn, ?_, hroot, hrepl⟩
      rw [hn', hl]
    · exact absurd hplan (searchReplace_not_planned _ _ _ _)

theorem extractNames_last_three_witness :
    3 ≤ (Split (Trim "/code/github.com/alice/myapp/" "/") '/').length ∧
    ((∀ gopath s, ∃ n lead,
        extractNames okWorld gopath "/code/github.com/alice/myapp/" s = Res.ok n s ∧
      Split (Trim "/code/github.com/alice/myapp/" "/") '/' =
        lead ++ [n.repoName, n.repoUser, n.projectName] ∧
      n.dbName = n.projectName ∧ n.testDbName = n.projectName ++ "-test") ∧
    (∀ root repl, Effect.searchReplace root repl ∈
        (main okWorld ⟨"/code/github.com/alice/myapp/", "", "core"⟩ (start "/home")).run.trace →
      ∃ gopath n lead,
        extractNames okWorld gopath "/code/github.com/alice/myapp/" (start "/home") =
          Res.ok n (start "/home") ∧
        Split (Trim "/code/github.com/alice/myapp/" "/") '/' =
          lead ++ [n.repoName, n.repoUser, n.projectName] ∧
        root = n.fullpath ∧ repl = replacers okWorld n)) :=
  ⟨by decide,
    extractNames_last_three okWorld ⟨"/code/github.com/alice/myapp/", "", "core"⟩ "/home"
      (by decide)⟩

/-- C2, as stated, fails: `a//b` has only two non-empty segments, yet the run is not
rejected; it creates the target directory and ends normally. -/
theorem double_slash_dir_accepted :
    nonEmptySegments "a//b" < 3 ∧
    (main okWorld ⟨"a//b", "", "core"⟩ (start "/home")).status = none ∧
    Effect.mkdirAll "/go2/src/a/b" ∈
      (main okWorld ⟨"a//b", "", "core"⟩ (start "/home")).run.trace := by
  decide

/-- C2, amended: when the trimmed `-dir` splits into fewer than three segments (empty
segments count), the run ends fatally with an empty trace, so the target
directory is never created; when moreover `-dir` is not empty and the choice of
the gopath succeeded, the fatal message is the "three parts" message. -/
theorem fewer_than_three_segments_fatal (w : World) (f : Flags) (cwd : String)
    (h : (Split (Trim f.dirInput "/") '/').length < 3) :
    (main w f (start cwd)).run.trace = [] ∧
    (main w f (start cwd)).status ≠ none ∧
    (∀ gopath, f.dirInput ≠ "" →
      resolveGopath w f.gopathInput (start cwd) = Res.ok gopath (start cwd) →
      (main w f (start cwd)).status = some (Fatal.fatalln threePartsMessage)) :=
  ⟨(main_early_exit w f cwd (Or.inr (Or.inr (Or.inr (Or.inl h))))).1,
    (main_early_exit w f cwd (Or.inr (Or.inr (Or.inr (Or.inl h))))).2,
    fun gopath hdir hroot => main_three_parts w f cwd gopath hdir hroot h⟩

theorem fewer_than_three_segments_fatal_witness :
    (Split (Trim "/alice/myapp/" "/") '/').length < 3 ∧
    (main okWorld ⟨"/alice/myapp/", "", "core"⟩ (start "/home")).run.trace = [] ∧
    (main okWorld ⟨"/alice/myapp/", "", "core"⟩ (start "/home")).status ≠ none ∧
    (∀ gopath, "/alice/myapp/" ≠ "" →
      resolveGopath okWorld "" (start "/home") = Res.ok gopath (start "/home") →
      (main okWorld ⟨"/alice/myapp/", "", "core"⟩ (start "/home")).status =
        some (Fatal.fatalln threePartsMessage)) :=
  ⟨by decide,
    fewer_than_three_segments_fatal okWorld ⟨"/alice/myapp/", "", "core"⟩ "/home" (by decide)⟩

/-- C3: with a non-empty list of candidate roots and an empty `-gopath`, the chosen
gopath is the last element of the list. -/
theorem resolveGopath_default_last (w : World) (s : Run) (h : w.GoPaths ≠ []) :
    resolveGopath w "" s = Res.ok (w.GoPaths.getLast h) s := by
  have hlen : ¬ w.GoPaths.length = 0 := by simpa using h
  simp only [resolveGopath, ite_run, if_neg hlen, pure_run, ne_eq, not_true_eq_false, if_false]
  congr 1
  rw [List.getLast_eq_getElem, List.getD_eq_getElem?_getD, List.getElem?_eq_getElem]
  rfl

theorem resolveGopath_default_last_witness :
    resolveGopath okWorld "" (start "/home") =
      Res.ok (okWorld.GoPaths.getLast (by decide)) (start "/home") :=
  resolveGopath_default_last okWorld (start "/home") (by decide)

/-- C4: with a non-empty list of candidate roots and a non-empty `-gopath`: when the
absolute form is computed without error and is a member of the list, it is the
chosen gopath; when it cannot be computed or is not a member, the run ends
fatally with the message `Cannot find <override as given> in $GOPATH` and no
effect is attempted. -/
theorem resolveGopath_override (w : World) (gopathInput : String) (s : Run)
    (hg : gopathInput ≠ "") (hne : w.GoPaths ≠ []) :
    (((w.Abs gopathInput).2 = none ∧ (w.Abs gopathInput).1 ∈ w.GoPaths) →
      resolveGopath w gopathInput s = Res.ok (w.Abs gopathInput).1 s) ∧
    (((w.Abs gopathInput).2 ≠ none ∨ (w.Abs gopathInput).1 ∉ w.GoPaths) →
      (resolveGopath w gopathInput s).status =
          some (Fatal.fatalln ("Cannot find " ++ gopathInput ++ " in $GOPATH")) ∧
        (resolveGopath w gopathInput s).run.trace = s.trace) := by
  have hlen : ¬ w.GoPaths.length = 0 := by simpa using hne
  constructor
  · rintro ⟨h1, h2⟩
    have hv : (decide ((w.Abs gopathInput).2 = none) &&
        IsValidGoPath w (w.Abs gopathInput).1) = true := by
      simp [h1, IsValidGoPath_iff, h2]
    simp only [resolveGopath, ite_run, if_neg hlen, if_pos hg, if_pos hv, pure_run]
  · intro h
    have hv : ¬ (decide ((w.Abs gopathInput).2 = none) &&
        IsValidGoPath w (w.Abs gopathInput).1) = true := by
      simp only [Bool.and_eq_true, decide_eq_true_eq, IsValidGoPath_iff]
      tauto
    simp only [resolveGopath, ite_run, if_neg hlen, if_pos hg, if_neg hv, Fatalln, Res.status,
      Res.run]
    exact ⟨trivial, trivial⟩

theorem resolveGopath_override_witness :
    (((okWorld.Abs "/go1").2 = none ∧ (okWorld.Abs "/go1").1 ∈ okWorld.GoPaths) →
      resolveGopath okWorld "/go1" (start "/home") =
        Res.ok (okWorld.Abs "/go1").1 (start "/home")) ∧
    (((okWorld.Abs "/go1").2 ≠ none ∨ (okWorld.Abs "/go1").1 ∉ okWorld.GoPaths) →
      (resolveGopath okWorld "/go1" (start "/home")).status =
          some (Fatal.fatalln ("Cannot find " ++ "/go1" ++ " in $GOPATH")) ∧
        (resolveGopath okWorld "/go1" (start "/home")).run.trace = (start "/home").trace) :=
  resolveGopath_override okWorld "/go1" (start "/home") (by decide) (by decide)

/-- C5: in every run, a setup step among `go get github.com/rnubel/pgmgr`,
`go get ./...`, `go get github.com/tools/godep`, `git init` and
`godep save ./...` that returns an error is the last effect of the run (no later
step is executed, the test run included), and the run ends with the fatal status
that carries this error and the output of the command. -/
theorem failFast_failure_halts_run (w : World) (f : Flags) (cwd : String)
    (pre post : List Effect) (dir : String) (argv : List String) (pol : Policy) (e : String)
    (htrace : (main w f (start cwd)).run.trace = pre ++ Effect.exec dir argv pol :: post)
    (hstep : argv ∈ failFastSteps)
    (herr : (w.Exec pre dir argv).err = some e) :
    post = [] ∧
      (main w f (start cwd)).status =
        some (Fatal.exitOnError e (w.Exec pre dir argv).output) :=
  (main_haltsAtFailure w f cwd).last pre dir argv pol post e htrace hstep herr

theorem failFast_failure_halts_run_witness :
    ([] : List Effect) = [] ∧
      (main { okWorld with Exec := failing ["git", "init"] }
          ⟨"github.com/alice/myapp", "", "core"⟩ (start "/home")).status =
        some (Fatal.exitOnError "exit status 1"
          (failing ["git", "init"]
            [ Effect.mkdirAll "/go2/src/github.com/alice/myapp",
              Effect.chdir "/tpl/core",
              Effect.exec "" ["cp", "-rf", ".", "/go2/src/github.com/alice/myapp"]
                Policy.failFast,
              Effect.chdir "/home",
              Effect.searchReplace "/go2/src/github.com/alice/myapp"
                (replacers okWorld
                  { trimmedPath := "github.com/alice/myapp",
                    fullpath := "/go2/src/github.com/alice/myapp",
                    repoName := "github.com", repoUser := "alice", projectName := "myapp",
                    dbName := "myapp", testDbName := "myapp-test" }),
              Effect.exec "/go2/src/github.com/alice/myapp" ["go", "get", "./..."]
                Policy.failFast,
              Effect.exec "" ["go", "get", "github.com/tools/godep"] Policy.failFast ]
            "/go2/src/github.com/alice/myapp" ["git", "init"]).output) :=
  failFast_failure_halts_run { okWorld with Exec := failing ["git", "init"] }
    ⟨"github.com/alice/myapp", "", "core"⟩ "/home"
    [ Effect.mkdirAll "/go2/src/github.com/alice/myapp",
      Effect.chdir "/tpl/core",
      Effect.exec "" ["cp", "-rf", ".", "/go2/src/github.com/alice/myapp"] Policy.failFast,
      Effect.chdir "/home",
      Effect.searchReplace "/go2/src/github.com/alice/myapp"
        (replacers okWorld
          { trimmedPath := "github.com/alice/myapp",
            fullpath := "/go2/src/github.com/alice/myapp",
            repoName := "github.com", repoUser := "alice", projectName := "myapp",
            dbName := "myapp", testDbName := "myapp-test" }),
      Effect.exec "/go2/src/github.com/alice/myapp" ["go", "get", "./..."] Policy.failFast,
      Effect.exec "" ["go", "get", "github.com/tools/godep"] Policy.failFast ]
    [] "/go2/src/github.com/alice/myapp"
    ["git", "init"] Policy.failFast "exit status 1" (by decide) (by decide) (by decide)

/-- C6: two runs with the same flags and the same surroundings, except that the
commands `bash scripts/db-bootstrap`, `hg init`, `godep go test ./...` and
`go test ./...` may have different outcomes, attempt the same sequence of effects
and end with the same exit status. -/
theorem bestEffort_outcome_irrelevant (w : World)
    (exec2 : List Effect → String → List String → CmdResult) (f : Flags) (cwd : String)
    (h : ∀ t dir argv, argv ∉ bestEffortSteps → exec2 t dir argv = w.Exec t dir argv) :
    (main w f (start cwd)).run.trace = (main { w with Exec := exec2 } f (start cwd)).run.trace ∧
    (main w f (start cwd)).status = (main { w with Exec := exec2 } f (start cwd)).status :=
  have hsim := agree_eq ((main_sim w exec2 f h).agree (start cwd) (start cwd) rfl rfl)
  ⟨hsim.1, hsim.2.1⟩

theorem failing_bootstrap_agrees (t : List Effect) (dir : String) (argv : List String)
    (h : argv ∉ bestEffortSteps) :
    failing ["bash", "scripts/db-bootstrap"] t dir argv = okWorld.Exec t dir argv := by
  have hne : ¬ argv = ["bash", "scripts/db-bootstrap"] := by
    intro heq
    subst heq
    exact h (by decide)
  simp only [failing, if_neg hne]
  rfl

theorem bestEffort_outcome_irrelevant_witness :
    (main okWorld ⟨"bitbucket.org/bob/site", "", "postgresql"⟩ (start "/home")).run.trace =
      (main { okWorld with Exec := failing ["bash", "scripts/db-bootstrap"] }
        ⟨"bitbucket.org/bob/site", "", "postgresql"⟩ (start "/home")).run.trace ∧
    (main okWorld ⟨"bitbucket.org/bob/site", "", "postgresql"⟩ (start "/home")).status =
      (main { okWorld with Exec := failing ["bash", "scripts/db-bootstrap"] }
        ⟨"bitbucket.org/bob/site", "", "postgresql"⟩ (start "/home")).status :=
  bestEffort_outcome_irrelevant okWorld (failing ["bash", "scripts/db-bootstrap"])
    ⟨"bitbucket.org/bob/site", "", "postgresql"⟩ "/home" failing_bootstrap_agrees

/-- C7, as stated, fails: for `git.example.com/alice/myapp` with template `core` and
every call succeeding, the last step is `godep go test ./...`, and the plain
`go test ./...` is not run at all (the host segment begins with `git`). -/
theorem git_example_runs_godep_test :
    (main okWorld ⟨"git.example.com/alice/myapp", "", "core"⟩ (start "/home")).status = none ∧
    (main okWorld ⟨"git.example.com/alice/myapp", "", "core"⟩ (start "/home")).run.trace.getLast? =
      some (Effect.exec "/go2/src/git.example.com/alice/myapp" ["godep", "go", "test", "./..."]
        Policy.bestEffort) ∧
    Effect.exec "/go2/src/git.example.com/alice/myapp" ["go", "test", "./..."] Policy.bestEffort ∉
      (main okWorld ⟨"git.example.com/alice/myapp", "", "core"⟩ (start "/home")).run.trace := by
  decide

/-- C7, amended: for `git.example.com/alice/myapp` with template `core`, a run that
ends normally has extracted `repoName = git.example.com`, `repoUser = alice`,
`projectName = myapp`, `dbName = myapp`, `testDbName = myapp-test`; after the
copy and the interpolation it runs `go get ./...`, `go get
github.com/tools/godep`, `git init`, `godep save ./...` (all fail-fast) and last
`godep go test ./...` (best-effort). The database steps and the plain
`go test ./...` are not run. -/
theorem git_example_core_run (w : World) (gopathInput cwd : String)
    (hok : (main w ⟨"git.example.com/alice/myapp", gopathInput, "core"⟩ (start cwd)).status =
      none) :
    ∃ gopath n,
      resolveGopath w gopathInput (start cwd) = Res.ok gopath (start cwd) ∧
      extractNames w gopath "git.example.com/alice/myapp" (start cwd) = Res.ok n (start cwd) ∧
      n.repoName = "git.example.com" ∧ n.repoUser = "alice" ∧ n.projectName = "myapp" ∧
      n.dbName = "myapp" ∧ n.testDbName = "myapp-test" ∧
      (main w ⟨"git.example.com/alice/myapp", gopathInput, "core"⟩ (start cwd)).run.trace =
        [ Effect.mkdirAll n.fullpath,
          Effect.chdir (w.GetProjectTemplateDir "core").1,
          Effect.exec "" ["cp", "-rf", ".", n.fullpath] Policy.failFast,
          Effect.chdir cwd,
          Effect.searchReplace n.fullpath (replacers w n),
          Effect.exec n.fullpath ["go", "get", "./..."] Policy.failFast,
          Effect.exec "" ["go", "get", "github.com/tools/godep"] Policy.failFast,
          Effect.exec n.fullpath ["git", "init"] Policy.failFast,
          Effect.exec n.fullpath ["godep", "save", "./..."] Policy.failFast,
          Effect.exec n.fullpath ["godep", "go", "test", "./..."] Policy.bestEffort ] := by
  obtain ⟨gopath, n, _, hg, hn, _, htrace, _⟩ := main_success w _ cwd hok
  have hsplit : Split (Trim "git.example.com/alice/myapp" "/") '/' =
      [] ++ ["git.example.com", "alice", "myapp"] := by decide
  have hn2 := extractNames_eq w gopath "git.example.com/alice/myapp" (start cwd) []
    "git.example.com" "alice" "myapp" hsplit
  have hn' : Res.ok n (start cwd) = _ := hn.symm.trans hn2
  simp only [Res.ok.injEq, and_true] at hn'
  subst hn'
  refine ⟨gopath, _, hg, hn2, rfl, rfl, rfl, rfl, rfl, ?_⟩
  rw [htrace]
  have hgit : HasPrefix "git.example.com" "git" = true := by decide
  have hhg : HasPrefix "git.example.com" "bitbucket" = false := by decide
  simp [plannedSteps, hgit, hhg]

theorem git_example_core_run_witness :
    ∃ gopath n,
      resolveGopath okWorld "" (start "/home") = Res.ok gopath (start "/home") ∧
      extractNames okWorld gopath "git.example.com/alice/myapp" (start "/home") =
        Res.ok n (start "/home") ∧
      n.repoName = "git.example.com" ∧ n.repoUser = "alice" ∧ n.projectName = "myapp" ∧
      n.dbName = "myapp" ∧ n.testDbName = "myapp-test" ∧
      (main okWorld ⟨"git.example.com/alice/myapp", "", "core"⟩ (start "/home")).run.trace =
        [ Effect.mkdirAll n.fullpath,
          Effect.chdir (okWorld.GetProjectTemplateDir "core").1,
          Effect.exec "" ["cp", "-rf", ".", n.fullpath] Policy.failFast,
          Effect.chdir "/home",
          Effect.searchReplace n.fullpath (replacers okWorld n),
          Effect.exec n.fullpath ["go", "get", "./..."] Policy.failFast,
          Effect.exec "" ["go", "get", "github.com/tools/godep"] Policy.failFast,
          Effect.exec n.fullpath ["git", "init"] Policy.failFast,
          Effect.exec n.fullpath ["godep", "save", "./..."] Policy.failFast,
          Effect.exec n.fullpath ["godep", "go", "test", "./..."] Policy.bestEffort ] :=
  git_example_core_run okWorld "" "/home" (by decide)

/-- C8: when the host segment of `-dir` begins with `bitbucket` and the template is
not `core`, a run that ends normally attempts, after the copy and the
interpolation, exactly the steps `go get github.com/rnubel/pgmgr` (fail-fast),
`bash scripts/db-bootstrap` (best-effort), `go get ./...` (fail-fast),
`go get github.com/tools/godep` (fail-fast), `hg init` (best-effort),
`godep save ./...` (fail-fast), `godep go test ./...` (best-effort), in this
order; `git init` and the plain `go test ./...` are not among them. -/
theorem bitbucket_step_sequence (w : World) (f : Flags) (cwd : String)
    (lead : List String) (host owner project : String)
    (hsplit : Split (Trim f.dirInput "/") '/' = lead ++ [host, owner, project])
    (hhost : HasPrefix host "bitbucket" = true)
    (htemplate : f.templateInput ≠ "core")
    (hok : (main w f (start cwd)).status = none) :
    ∃ gopath n,
      resolveGopath w f.gopathInput (start cwd) = Res.ok gopath (start cwd) ∧
      extractNames w gopath f.dirInput (start cwd) = Res.ok n (start cwd) ∧
      n.repoName = host ∧ n.repoUser = owner ∧ n.projectName = project ∧
      (main w f (start cwd)).run.trace =
        [ Effect.mkdirAll n.fullpath,
          Effect.chdir (w.GetProjectTemplateDir f.templateInput).1,
          Effect.exec "" ["cp", "-rf", ".", n.fullpath] Policy.failFast,
          Effect.chdir cwd,
          Effect.searchReplace n.fullpath (replacers w n) ] ++
        [ Effect.exec "" ["go", "get", "github.com/rnubel/pgmgr"] Policy.failFast,
          Effect.exec n.fullpath ["bash", "scripts/db-bootstrap"] Policy.bestEffort,
          Effect.exec n.fullpath ["go", "get", "./..."] Policy.failFast,
          Effect.exec "" ["go", "get", "github.com/tools/godep"] Policy.failFast,
          Effect.exec n.fullpath ["hg", "init"] Policy.bestEffort,
          Effect.exec n.fullpath ["godep", "save", "./..."] Policy.failFast,
          Effect.exec n.fullpath ["godep", "go", "test", "./..."] Policy.bestEffort ] := by
  obtain ⟨gopath, n, _, hg, hn, _, htrace, _⟩ := main_success w f cwd hok
  have hn2 := extractNames_eq w gopath f.dirInput (start cwd) lead host owner project hsplit
  have hn' : Res.ok n (start cwd) = _ := hn.symm.trans hn2
  simp only [Res.ok.injEq, and_true] at hn'
  subst hn'
  refine ⟨gopath, _, hg, hn2, rfl, rfl, rfl, ?_⟩
  rw [htrace]
  have hgit : HasPrefix host "git" = false := not_git_of_bitbucket host hhost
  simp [plannedSteps, hgit, hhost, htemplate]

theorem bitbucket_step_sequence_witness :
    ∃ gopath n,
      resolveGopath okWorld "" (start "/home") = Res.ok gopath (start "/home") ∧
      extractNames okWorld gopath "bitbucket.org/bob/site" (start "/home") =
        Res.ok n (start "/home") ∧
      n.repoName = "bitbucket.org" ∧ n.repoUser = "bob" ∧ n.projectName = "site" ∧
      (main okWorld ⟨"bitbucket.org/bob/site", "", "postgresql"⟩ (start "/home")).run.trace =
        [ Effect.mkdirAll n.fullpath,
          Effect.chdir (okWorld.GetProjectTemplateDir "postgresql").1,
          Effect.exec "" ["cp", "-rf", ".", n.fullpath] Policy.failFast,
          Effect.chdir "/home",
          Effect.searchReplace n.fullpath (replacers okWorld n) ] ++
        [ Effect.exec "" ["go", "get", "github.com/rnubel/pgmgr"] Policy.failFast,
          Effect.exec n.fullpath ["bash", "scripts/db-bootstrap"] Policy.bestEffort,
          Effect.exec n.fullpath ["go", "get", "./..."] Policy.failFast,
          Effect.exec "" ["go", "get", "github.com/tools/godep"] Policy.failFast,
          Effect.exec n.fullpath ["hg", "init"] Policy.bestEffort,
          Effect.exec n.fullpath ["godep", "save", "./..."] Policy.failFast,
          Effect.exec n.fullpath ["godep", "go", "test", "./..."] Policy.bestEffort ] :=
  bitbucket_step_sequence okWorld ⟨"bitbucket.org/bob/site", "", "postgresql"⟩ "/home" []
    "bitbucket.org" "bob" "site" (by decide) (by decide) (by decide) (by decide)

/-- C9: a run with a missing `-dir`, an empty list of candidate roots, an override
whose absolute form cannot be computed or is not among the candidate roots, a
`-dir` of fewer than three segments, or a template name for which no template
directory is found, ends fatally, and its trace of effects (MkdirAll, Chdir,
external commands, search-replace) is empty. -/
theorem fatal_input_error_before_effects (w : World) (f : Flags) (cwd : String)
    (h : f.dirInput = "" ∨ w.GoPaths = [] ∨
      (f.gopathInput ≠ "" ∧
        ((w.Abs f.gopathInput).2 ≠ none ∨ (w.Abs f.gopathInput).1 ∉ w.GoPaths)) ∨
      (Split (Trim f.dirInput "/") '/').length < 3 ∨
      (w.GetProjectTemplateDir f.templateInput).2 ≠ none) :
    (main w f (start cwd)).run.trace = [] ∧ (main w f (start cwd)).status ≠ none :=
  main_early_exit w f cwd h

theorem fatal_input_error_before_effects_witness :
    (main okWorld ⟨"github.com/alice/myapp", "", "mysql"⟩ (start "/home")).run.trace = [] ∧
    (main okWorld ⟨"github.com/alice/myapp", "", "mysql"⟩ (start "/home")).status ≠ none :=
  fatal_input_error_before_effects okWorld ⟨"github.com/alice/myapp", "", "mysql"⟩ "/home"
    (Or.inr (Or.inr (Or.inr (Or.inr (by decide)))))

/-- C10, as stated, fails: when `cp -rf . <fullpath>` fails, the run has reached the
copy step, ends there, and the working directory of the process is the template
directory, not the directory recorded before the copy. -/
theorem cwd_not_restored_on_cp_failure :
    (main { okWorld with Exec := failing ["cp", "-rf", ".", "/go2/src/github.com/alice/myapp"] }
        ⟨"github.com/alice/myapp", "", "core"⟩ (start "/home")).run.trace =
      [ Effect.mkdirAll "/go2/src/github.com/alice/myapp",
        Effect.chdir "/tpl/core",
        Effect.exec "" ["cp", "-rf", ".", "/go2/src/github.com/alice/myapp"] Policy.failFast ] ∧
    (main { okWorld with Exec := failing ["cp", "-rf", ".", "/go2/src/github.com/alice/myapp"] }
        ⟨"github.com/alice/myapp", "", "core"⟩ (start "/home")).run.cwd = "/tpl/core" ∧
    (main { okWorld with Exec := failing ["cp", "-rf", ".", "/go2/src/github.com/alice/myapp"] }
        ⟨"github.com/alice/myapp", "", "core"⟩ (start "/home")).run.cwd ≠ "/home" := by
  decide

/-- C10, amended: take a working directory that is a clean absolute path (what
`os.Getwd` reports) and a run that reaches the copy step (MkdirAll, Getwd and the
Chdir to the template directory succeed). When `cp` and the restoring Chdir
succeed, the stage continues, its effects are MkdirAll, Chdir to the template
directory, `cp`, Chdir back, and the working directory is the one recorded
before. When `cp` returns an error, the stage halts with the fatal status that
carries this error and the output of `cp`; its effects end with `cp`, no
restoring Chdir is attempted, and the working directory is the one reached by
the Chdir to the template directory. Conversely, whenever the stage continues
the working directory is the recorded one, and whenever it halts with `cp` as
its last effect, `cp` returned an error. -/
theorem copyTemplate_cwd (w : World) (dir fullpath : String) (s : Run)
    (habs : HasPrefix s.cwd "/" = true) (hclean : pathClean s.cwd = s.cwd) :
    (w.MkdirAll s.trace fullpath = none →
      w.Getwd (s.trace ++ [Effect.mkdirAll fullpath]) = none →
      w.Chdir (s.trace ++ [Effect.mkdirAll fullpath]) dir = none →
      (∀ err,
        (w.Exec (s.trace ++ [Effect.mkdirAll fullpath, Effect.chdir dir]) ""
          ["cp", "-rf", ".", fullpath]).err = some err →
        (copyTemplate w dir fullpath s).status =
          some (Fatal.exitOnError err
            (w.Exec (s.trace ++ [Effect.mkdirAll fullpath, Effect.chdir dir]) ""
              ["cp", "-rf", ".", fullpath]).output) ∧
        (copyTemplate w dir fullpath s).run.trace = s.trace ++
          [ Effect.mkdirAll fullpath, Effect.chdir dir,
            Effect.exec "" ["cp", "-rf", ".", fullpath] Policy.failFast ] ∧
        (copyTemplate w dir fullpath s).run.cwd = chdirTarget s.cwd dir) ∧
      ((w.Exec (s.trace ++ [Effect.mkdirAll fullpath, Effect.chdir dir]) ""
          ["cp", "-rf", ".", fullpath]).err = none →
        w.Chdir (s.trace ++
          [ Effect.mkdirAll fullpath, Effect.chdir dir,
            Effect.exec "" ["cp", "-rf", ".", fullpath] Policy.failFast ]) s.cwd = none →
        (copyTemplate w dir fullpath s).status = none ∧
        (copyTemplate w dir fullpath s).run.trace = s.trace ++
          [ Effect.mkdirAll fullpath, Effect.chdir dir,
            Effect.exec "" ["cp", "-rf", ".", fullpath] Policy.failFast,
            Effect.chdir s.cwd ] ∧
        (copyTemplate w dir fullpath s).run.cwd = s.cwd)) ∧
    (∀ s1, copyTemplate w dir fullpath s = Res.ok () s1 →
      s1.cwd = s.cwd ∧
      s1.trace = s.trace ++
        [ Effect.mkdirAll fullpath, Effect.chdir dir,
          Effect.exec "" ["cp", "-rf", ".", fullpath] Policy.failFast, Effect.chdir s.cwd ]) ∧
    (∀ e s1, copyTemplate w dir fullpath s = Res.halt e s1 →
      s1.trace = s.trace ++
        [ Effect.mkdirAll fullpath, Effect.chdir dir,
          Effect.exec "" ["cp", "-rf", ".", fullpath] Policy.failFast ] →
      s1.cwd = chdirTarget s.cwd dir ∧
      ∃ err,
        (w.Exec (s.trace ++ [Effect.mkdirAll fullpath, Effect.chdir dir]) ""
          ["cp", "-rf", ".", fullpath]).err = some err ∧
        e = Fatal.exitOnError err
          (w.Exec (s.trace ++ [Effect.mkdirAll fullpath, Effect.chdir dir]) ""
            ["cp", "-rf", ".", fullpath]).output) := by
  have hback : ∀ c, chdirTarget c s.cwd = s.cwd := fun c => chdirTarget_abs c s.cwd habs hclean
  have key : (copyTemplate w dir fullpath s).Sat
      (fun _ s1 => s1.cwd = s.cwd ∧
        s1.trace = s.trace ++
          [ Effect.mkdirAll fullpath, Effect.chdir dir,
            Effect.exec "" ["cp", "-rf", ".", fullpath] Policy.failFast, Effect.chdir s.cwd ])
      (fun e s1 => s1.trace = s.trace ++
          [ Effect.mkdirAll fullpath, Effect.chdir dir,
            Effect.exec "" ["cp", "-rf", ".", fullpath] Policy.failFast ] →
        s1.cwd = chdirTarget s.cwd dir ∧
        ∃ err,
          (w.Exec (s.trace ++ [Effect.mkdirAll fullpath, Effect.chdir dir]) ""
            ["cp", "-rf", ".", fullpath]).err = some err ∧
          e = Fatal.exitOnError err
            (w.Exec (s.trace ++ [Effect.mkdirAll fullpath, Effect.chdir dir]) ""
              ["cp", "-rf", ".", fullpath]).output) := by
    simp only [copyTemplate, sat_bind, sat_logPrint, sat_MkdirAll, sat_Getwd, sat_Chdir,
      sat_CombinedOutput, sat_ExitOnError]
    repeat' first
      | apply And.intro
      | intro _
    all_goals simp_all
  refine ⟨fun hmkdir hgetwd hchdir => ⟨fun err hcp => ?_, fun hcp hrestore => ?_⟩, ?_, ?_⟩
  · simp [copyTemplate, bind_run, logPrint, MkdirAll, Getwd, Chdir, CombinedOutput,
      ExitOnError, Res.status, Res.run, hmkdir, hgetwd, hchdir, hcp]
  · have hrestore2 : w.Chdir (s.trace ++ [Effect.mkdirAll fullpath] ++ [Effect.chdir dir] ++
        [Effect.exec "" ["cp", "-rf", ".", fullpath] Policy.failFast]) s.cwd = none := by
      simpa using hrestore
    have hcp2 : (w.Exec (s.trace ++ [Effect.mkdirAll fullpath] ++ [Effect.chdir dir]) ""
        ["cp", "-rf", ".", fullpath]).err = none := by
      simpa using hcp
    simp [copyTemplate, bind_run, logPrint, MkdirAll, Getwd, Chdir, CombinedOutput,
      ExitOnError, Res.status, Res.run, hmkdir, hgetwd, hchdir, hcp, hcp2, hrestore, hrestore2,
      hback]
  · intro s1 h1
    rw [h1] at key
    exact key
  · intro e s1 h1
    rw [h1] at key
    exact key

theorem copyTemplate_cwd_witness :
    (HasPrefix "/home" "/" = true ∧ pathClean "/home" = "/home") ∧
    (copyTemplate okWorld "/tpl/core" "/go2/src/github.com/alice/myapp" (start "/home")).status =
      none ∧
    (copyTemplate okWorld "/tpl/core" "/go2/src/github.com/alice/myapp"
        (start "/home")).run.trace =
      [ Effect.mkdirAll "/go2/src/github.com/alice/myapp", Effect.chdir "/tpl/core",
        Effect.exec "" ["cp", "-rf", ".", "/go2/src/github.com/alice/myapp"] Policy.failFast,
        Effect.chdir "/home" ] ∧
    (copyTemplate okWorld "/tpl/core" "/go2/src/github.com/alice/myapp"
        (start "/home")).run.cwd = "/home" :=
  ⟨⟨by decide, by decide⟩,
    ((copyTemplate_cwd okWorld "/tpl/core" "/go2/src/github.com/alice/myapp" (start "/home")
      (by decide) (by decide)).1 (by decide) (by decide) (by decide)).2 (by decide) (by decide)⟩

end GoBootstrap
